import Mathlib

/-!
# vkmark `copy` scene: the isolated `copy_buffer` test

A shallow embedding of `copy_test` from `src/scenes/copy_scene.cpp` and the
properties of its verification protocol.

Modelling conventions

* A byte pointer (`void*`, `const unsigned char*`) is a map from a byte offset
  to the byte read there.  Bytes are natural numbers; the one narrowing cast
  of the source, `static_cast<uint8_t>`, is an explicit `% 256`.
* `size_t` counters are natural numbers; the increment of `mismatches_found`
  is taken modulo `2 ^ 64`.
* The Vulkan device and `vkutil` are not part of the translated file.  They
  are a parameter of `copy_test`: a record of state transformers over an
  arbitrary device state.  Calls that report failure by throwing
  (`vk::SystemError`) return `Except`; `unmapMemory` returns nothing and
  cannot fail.
* Every call and every host access of mapped memory that completes is
  appended to `Run.steps`; every line written to `std::cout` / `std::cerr`
  is appended to `Run.out`.  An exception stops the run: `Run.thrown` is set
  and all later statements are skipped.
-/

namespace Vkmark

/-! ## Data model -/

/-- A byte pointer: offset to the byte stored there. -/
abbrev Ptr := Nat → Nat

/-- The two memory blocks of the test: `src_buffer_memory` and
`dst_buffer_memory` (with the buffers bound to them). -/
inductive Mem
  | src
  | dst
  deriving DecidableEq, Repr, Fintype

/-- Buffer usage flag handed to the builder. -/
inductive BufferUsage
  | eTransferSrc
  | eTransferDst
  deriving DecidableEq, Repr

/-- Memory property flag handed to the builder. -/
inductive MemoryProperty
  | eHostVisible
  deriving DecidableEq, Repr

/-- An error thrown by a device call, carrying the `VkResult` code. -/
structure VkError where
  result : Int
  deriving DecidableEq, Repr

/-- The device as seen by `copy_test`: `vulkan.device()`, the buffer builder
and `vkutil::copy_buffer`, over a device state `σ`. -/
structure VulkanState (σ : Type) where
  /-- The call `vkutil::BufferBuilder ... .build()` with `set_memory_out`. -/
  build : Mem → Nat → BufferUsage → MemoryProperty → σ → Except VkError σ
  /-- The call `device.mapMemory(memory, offset, size)`. -/
  mapMemory : Mem → Nat → Nat → σ → Except VkError σ
  /-- The call `device.unmapMemory(memory)`. -/
  unmapMemory : Mem → σ → σ
  /-- The call `device.flushMappedMemoryRanges` on `(memory, offset, size)`. -/
  flushMappedMemoryRanges : Mem → Nat → Nat → σ → Except VkError σ
  /-- The call `device.invalidateMappedMemoryRanges` on `(memory, offset, size)`. -/
  invalidateMappedMemoryRanges : Mem → Nat → Nat → σ → Except VkError σ
  /-- The call `vkutil::copy_buffer(vulkan, src, dst, size)`. -/
  copy_buffer : Mem → Mem → Nat → σ → Except VkError σ
  /-- What the host reads through the pointer returned by `mapMemory`. -/
  load : Mem → σ → Ptr
  /-- The host stores `n` bytes, taken from a pointer, through the mapped
  pointer (the effect of `memcpy` / `memset` on mapped memory). -/
  store : Mem → Ptr → Nat → σ → σ

/-- One completed step of the run: a device call or a host access of mapped
memory. -/
inductive Step
  | build (m : Mem)
  | mapMemory (m : Mem)
  | memcpy (m : Mem)
  | memset (m : Mem)
  | memcmp (m : Mem)
  | unmapMemory (m : Mem)
  | flushMappedMemoryRanges (m : Mem)
  | invalidateMappedMemoryRanges (m : Mem)
  | copy_buffer
  deriving DecidableEq, Repr

/-- One line of diagnostic output.  All lines carry the `[ISO_TEST]` tag. -/
inductive Msg
  /-- cout: "Starting isolated copy_buffer test..." -/
  | starting
  /-- cout: "Source CPU data prepared." -/
  | source_prepared
  /-- cout: "Source Vulkan buffer created and populated." -/
  | source_populated
  /-- cout: "Source Vulkan buffers are identical." -/
  | source_identical
  /-- cerr: "FAILURE: Isolated copy_buffer test FAILED. Even src buffers are
  different." -/
  | source_differ
  /-- cerr: "Mismatch at byte i: Expected (Src): 0x.. Actual (Dst): 0x.." -/
  | mismatch (i expected actual : Nat)
  /-- cerr: "Total byte mismatches in isolated test: k out of n bytes." -/
  | total (mismatches_found size : Nat)
  /-- cerr: "(Further mismatches not printed for isolated test)" -/
  | further
  /-- cout: "Manually flushed src_buffer_memory." -/
  | flushed
  /-- cout: "Destination Vulkan buffer created." -/
  | destination_created
  /-- cout: "Destination buffer pre-filled with 0x00 pattern." -/
  | destination_prefilled
  /-- cout: "Calling vkutil::copy_buffer to copy n bytes..." -/
  | calling_copy (size : Nat)
  /-- cout: "vkutil::copy_buffer returned." -/
  | copy_returned
  /-- cout: "Manually invalidated dst_buffer_memory." -/
  | invalidated
  /-- cout: "Verifying destination buffer contents..." -/
  | verifying
  /-- cout: "SUCCESS: Isolated copy_buffer test PASSED. Buffers are
  identical." -/
  | passed
  /-- cerr: "FAILURE: Isolated copy_buffer test FAILED. Buffers DIFFER." -/
  | failed
  /-- cout: "Isolated copy_buffer test finished." -/
  | finished
  deriving DecidableEq, Repr

/-- The state of a run of `copy_test`. -/
structure Run (σ : Type) where
  /-- Device state. -/
  dev : σ
  /-- Steps completed so far, oldest first. -/
  steps : List Step
  /-- Lines written so far, oldest first. -/
  out : List Msg
  /-- The exception that ended the run, if any. -/
  thrown : Option VkError

/-- A device call that may throw. -/
def Run.call {σ : Type} (r : Run σ) (s : Step) (f : σ → Except VkError σ) : Run σ :=
  match r.thrown with
  | some _ => r
  | none =>
    match f r.dev with
    | .ok d => { r with dev := d, steps := r.steps ++ [s] }
    | .error e => { r with thrown := some e }

/-- A call or host access that cannot fail. -/
def Run.exec {σ : Type} (r : Run σ) (s : Step) (f : σ → σ) : Run σ :=
  match r.thrown with
  | some _ => r
  | none => { r with dev := f r.dev, steps := r.steps ++ [s] }

/-- Write one line. -/
def Run.print {σ : Type} (r : Run σ) (m : Msg) : Run σ :=
  match r.thrown with
  | some _ => r
  | none => { r with out := r.out ++ [m] }

/-- Write several lines. -/
def Run.prints {σ : Type} (r : Run σ) (ms : List Msg) : Run σ :=
  ms.foldl Run.print r

/-! ## Constants and host-side helpers -/

/-- Line 41. -/
def TEST_BUFFER_SIZE : Nat := 4096

/-- The Vulkan constant `VK_WHOLE_SIZE` (`~0ULL`). -/
def VK_WHOLE_SIZE : Nat := 2 ^ 64 - 1

/-- Lines 72 and 143. -/
def max_mismatches_to_print : Nat := 128

/-- The cast `static_cast<uint8_t>`. -/
def to_uint8 (x : Nat) : Nat := x % 256

/-- Lines 44-47: a vector of `TEST_BUFFER_SIZE` zero bytes, then each element
assigned in index order. -/
def source_cpu_data : List Nat :=
  (List.range TEST_BUFFER_SIZE).foldl
    (fun v i => v.set i (to_uint8 (i % 250 + 1)))
    (List.replicate TEST_BUFFER_SIZE 0)

/-- The pointer `v.data()` of a byte vector.  Offsets past the end of the
vector, which `copy_test` never reads, read as 0. -/
def data (v : List Nat) : Ptr := fun i => v.getD i 0

/-- The test `memcmp(a, b, n) == 0`: the first `n` bytes agree. -/
def memcmp_eq_zero (a b : Ptr) (n : Nat) : Bool :=
  (List.range n).all (fun i => a i == b i)

/-- The constant-byte source of `memset(p, c, n)`. -/
def fill_byte (c : Nat) : Ptr := fun _ => to_uint8 c

/-! ## The mismatch report (lines 69-87 and, verbatim again, 140-158) -/

/-- The body of the counting loop at index `i`, on the pair
`(mismatches_found, lines printed by the loop)`. -/
def mismatch_step (expected_bytes actual_bytes : Ptr)
    (st : Nat × List Msg) (i : Nat) : Nat × List Msg :=
  if expected_bytes i ≠ actual_bytes i then
    ((st.1 + 1) % 2 ^ 64,
      if st.1 < max_mismatches_to_print then
        st.2 ++ [Msg.mismatch i (expected_bytes i) (actual_bytes i)]
      else st.2)
  else st

/-- The loop `for (size_t i = 0; i < n; ++i)` from `mismatches_found = 0`. -/
def mismatch_loop (expected_bytes actual_bytes : Ptr) (n : Nat) : Nat × List Msg :=
  (List.range n).foldl (mismatch_step expected_bytes actual_bytes) (0, [])

/-- The value of `mismatches_found` after the loop over the whole buffer. -/
def mismatches_found (expected_bytes actual_bytes : Ptr) : Nat :=
  (mismatch_loop expected_bytes actual_bytes TEST_BUFFER_SIZE).1

/-- The individual mismatch lines written by the loop over the whole buffer. -/
def mismatch_lines (expected_bytes actual_bytes : Ptr) : List Msg :=
  (mismatch_loop expected_bytes actual_bytes TEST_BUFFER_SIZE).2

/-- Everything the failure branch writes after its headline: the loop's
lines, the total, and the notice guarded by
`mismatches_found > max_mismatches_to_print && mismatches_found > 0`. -/
def report_mismatches (expected_bytes actual_bytes : Ptr) : List Msg :=
  mismatch_lines expected_bytes actual_bytes
    ++ [Msg.total (mismatches_found expected_bytes actual_bytes) TEST_BUFFER_SIZE]
    ++ (if mismatches_found expected_bytes actual_bytes > max_mismatches_to_print
            ∧ mismatches_found expected_bytes actual_bytes > 0
        then [Msg.further] else [])

/-! ## `copy_test`, section by section -/

section CopyTest

variable {σ : Type}

/-- Lines 39-48: "1. Prepare source data on CPU". -/
def prepare_source_data (r : Run σ) : Run σ :=
  let r := r.print Msg.starting
  r.print Msg.source_prepared

/-- Lines 50-62: "2. Create host-visible source buffer and fill it". -/
def fill_source (vk : VulkanState σ) (r : Run σ) : Run σ :=
  let r := r.call (.build .src)
    (vk.build .src TEST_BUFFER_SIZE .eTransferSrc .eHostVisible)
  let r := r.call (.mapMemory .src) (vk.mapMemory .src 0 TEST_BUFFER_SIZE)
  let r := r.exec (.memcpy .src) (vk.store .src (data source_cpu_data) TEST_BUFFER_SIZE)
  let r := r.exec (.unmapMemory .src) (vk.unmapMemory .src)
  r.print Msg.source_populated

/-- Lines 64-89: the source buffer is mapped again and compared with the host
data. -/
def check_source (vk : VulkanState σ) (r : Run σ) : Run σ :=
  let r := r.call (.mapMemory .src) (vk.mapMemory .src 0 TEST_BUFFER_SIZE)
  let p_src_map2 : Ptr := vk.load .src r.dev
  let r := r.exec (.memcmp .src) id
  let r :=
    if memcmp_eq_zero (data source_cpu_data) p_src_map2 TEST_BUFFER_SIZE then
      r.print Msg.source_identical
    else
      (r.print Msg.source_differ).prints
        (report_mismatches (data source_cpu_data) p_src_map2)
  r.exec (.unmapMemory .src) (vk.unmapMemory .src)

/-- Lines 91-98: flush of the source memory. -/
def flush_source (vk : VulkanState σ) (r : Run σ) : Run σ :=
  let r := r.call (.flushMappedMemoryRanges .src)
    (vk.flushMappedMemoryRanges .src 0 VK_WHOLE_SIZE)
  r.print Msg.flushed

/-- Lines 101-115: "3. Create host-visible destination buffer" and its
pre-fill with `0x00`. -/
def prefill_destination (vk : VulkanState σ) (r : Run σ) : Run σ :=
  let r := r.call (.build .dst)
    (vk.build .dst TEST_BUFFER_SIZE .eTransferDst .eHostVisible)
  let r := r.print Msg.destination_created
  let r := r.call (.mapMemory .dst) (vk.mapMemory .dst 0 TEST_BUFFER_SIZE)
  let r := r.exec (.memset .dst) (vk.store .dst (fill_byte 0x00) TEST_BUFFER_SIZE)
  let r := r.exec (.unmapMemory .dst) (vk.unmapMemory .dst)
  r.print Msg.destination_prefilled

/-- Lines 117-130: "4. Call vkutil::copy_buffer", then invalidate the
destination memory. -/
def copy_and_invalidate (vk : VulkanState σ) (r : Run σ) : Run σ :=
  let r := r.print (Msg.calling_copy TEST_BUFFER_SIZE)
  let r := r.call .copy_buffer (vk.copy_buffer .src .dst TEST_BUFFER_SIZE)
  let r := r.print Msg.copy_returned
  let r := r.call (.invalidateMappedMemoryRanges .dst)
    (vk.invalidateMappedMemoryRanges .dst 0 VK_WHOLE_SIZE)
  r.print Msg.invalidated

/-- Lines 134-135: the destination is mapped for the check. -/
def map_destination (vk : VulkanState σ) (r : Run σ) : Run σ :=
  let r := r.print Msg.verifying
  r.call (.mapMemory .dst) (vk.mapMemory .dst 0 TEST_BUFFER_SIZE)

/-- Lines 136-160: "5. Verify destination buffer contents", from the
comparison to the unmap. -/
def verify_destination (vk : VulkanState σ) (r : Run σ) : Run σ :=
  let p_dst_check_map : Ptr := vk.load .dst r.dev
  let r := r.exec (.memcmp .dst) id
  let r :=
    if memcmp_eq_zero (data source_cpu_data) p_dst_check_map TEST_BUFFER_SIZE then
      r.print Msg.passed
    else
      (r.print Msg.failed).prints
        (report_mismatches (data source_cpu_data) p_dst_check_map)
  r.exec (.unmapMemory .dst) (vk.unmapMemory .dst)

/-- The run of `copy_test` up to and including the pre-fill of the
destination (line 115). -/
def until_prefilled (vk : VulkanState σ) (s0 : σ) : Run σ :=
  prefill_destination vk (flush_source vk (check_source vk (fill_source vk
    (prepare_source_data ⟨s0, [], [], none⟩))))

/-- The run of `copy_test` up to and including the mapping of the destination
for the check (line 135). -/
def until_mapped (vk : VulkanState σ) (s0 : σ) : Run σ :=
  map_destination vk (copy_and_invalidate vk (until_prefilled vk s0))

/-- What the host reads through `p_dst_check_map` at the check. -/
def p_dst_check_map (vk : VulkanState σ) (s0 : σ) : Ptr :=
  vk.load .dst (until_mapped vk s0).dev

/-- The function `copy_test` (lines 37-164) on a device `vk` in state `s0`. -/
def copy_test (vk : VulkanState σ) (s0 : σ) : Run σ :=
  (verify_destination vk (until_mapped vk s0)).print Msg.finished

end CopyTest

/-! ## Specification-side vocabulary -/

/-- The indices below `n` at which two byte images differ, in increasing
order. -/
def mismatching (expected actual : Ptr) (n : Nat) : List Nat :=
  (List.range n).filter (fun i => decide (expected i ≠ actual i))

/-- The mismatch line for index `i` of two byte images. -/
def mismatch_at (expected actual : Ptr) (i : Nat) : Msg :=
  Msg.mismatch i (expected i) (actual i)

/-- A line is an individual mismatch line. -/
def Msg.is_mismatch : Msg → Bool
  | .mismatch _ _ _ => true
  | _ => false

/-- The run took the success branch of the final check: the line with
"PASSED" was written. -/
def Verified {σ : Type} (r : Run σ) : Prop := Msg.passed ∈ r.out

/-- The run took the failure branch of the final check: the line with
"FAILED. Buffers DIFFER." was written. -/
def Failed {σ : Type} (r : Run σ) : Prop := Msg.failed ∈ r.out

instance {σ : Type} (r : Run σ) : Decidable (Verified r) := by
  unfold Verified; infer_instance

instance {σ : Type} (r : Run σ) : Decidable (Failed r) := by
  unfold Failed; infer_instance

/-- The steps of a run of `copy_test` in which no call throws, read off the
source top to bottom. -/
def copy_test_steps : List Step :=
  [ .build .src, .mapMemory .src, .memcpy .src, .unmapMemory .src,
    .mapMemory .src, .memcmp .src, .unmapMemory .src,
    .flushMappedMemoryRanges .src,
    .build .dst, .mapMemory .dst, .memset .dst, .unmapMemory .dst,
    .copy_buffer,
    .invalidateMappedMemoryRanges .dst,
    .mapMemory .dst, .memcmp .dst, .unmapMemory .dst ]

/-- The positions in `copy_test_steps` of the calls that can throw: `build`,
`mapMemory`, `flushMappedMemoryRanges`, `copy_buffer` and
`invalidateMappedMemoryRanges`; latest first. -/
def copy_test_cuts : List Nat := [14, 13, 12, 9, 8, 7, 4, 1, 0]

/-- A run follows a list of steps: once it has come through without an
exception it has completed exactly the list, and when an exception has ended
it, it has completed one of the given initial segments. -/
def Run.Follows {σ : Type} (r : Run σ) (l : List Step) (cuts : List (List Step)) : Prop :=
  (r.thrown = none → r.steps = l) ∧ (r.thrown ≠ none → r.steps ∈ cuts)

/-- The step order as the specification lists it: build source buffer, map
and write the pattern, unmap, flush, build destination buffer, zero-fill it
(map, fill, unmap), copy, invalidate, map and compare, unmap. -/
def specified_steps : List Step :=
  [ .build .src, .mapMemory .src, .memcpy .src, .unmapMemory .src,
    .flushMappedMemoryRanges .src,
    .build .dst, .mapMemory .dst, .memset .dst, .unmapMemory .dst,
    .copy_buffer,
    .invalidateMappedMemoryRanges .dst,
    .mapMemory .dst, .memcmp .dst, .unmapMemory .dst ]

/-- The number of active mappings of block `m` after a sequence of steps:
maps minus unmaps. -/
def active_mappings (steps : List Step) (m : Mem) : Int :=
  (steps.count (.mapMemory m) : Int) - (steps.count (.unmapMemory m) : Int)

/-- The memory block a flush or invalidate step is issued on. -/
def Step.sync_target : Step → Option Mem
  | .flushMappedMemoryRanges m => some m
  | .invalidateMappedMemoryRanges m => some m
  | _ => none

/-- The sync discipline on a sequence of steps: every flush and every
invalidate of a block comes while a mapping of that block is active. -/
def sync_while_mapped (steps : List Step) : Prop :=
  ∀ k, k < steps.length → ∀ m, m ∈ (steps.getD k (.copy_buffer)).sync_target →
    active_mappings (steps.take k) m = 1

/-- Mapping exclusivity on a sequence of steps: at every point each block has
no or one active mapping, no block is mapped when `copy_buffer` runs, and no
block is mapped at the end. -/
def mapping_exclusive (steps : List Step) : Prop :=
  (∀ k, k ≤ steps.length → ∀ m,
      0 ≤ active_mappings (steps.take k) m ∧ active_mappings (steps.take k) m ≤ 1)
  ∧ (∀ k, k < steps.length → steps.getD k (.build .src) = .copy_buffer →
      ∀ m, active_mappings (steps.take k) m = 0)
  ∧ (∀ m, active_mappings steps m = 0)

/-- The sync placement of `copy_test` on a sequence of steps: every flush and
every invalidate of a block comes while no mapping of that block is active;
a flush is of the source, after the host has written it and before
`copy_buffer`; an invalidate is of the destination, after `copy_buffer` and
before the host compares it; and neither is issued more than once. -/
def sync_between_mappings (steps : List Step) : Prop :=
  (∀ k, k < steps.length → ∀ m, m ∈ (steps.getD k (.copy_buffer)).sync_target →
      active_mappings (steps.take k) m = 0)
  ∧ (∀ k, k < steps.length → ∀ m,
      steps.getD k (.copy_buffer) = .flushMappedMemoryRanges m →
        m = .src ∧ .memcpy .src ∈ steps.take k ∧ .copy_buffer ∉ steps.take k)
  ∧ (∀ k, k < steps.length → ∀ m,
      steps.getD k (.copy_buffer) = .invalidateMappedMemoryRanges m →
        m = .dst ∧ .copy_buffer ∈ steps.take k ∧ .memcmp .dst ∉ steps.take k)
  ∧ (∀ m, steps.count (.flushMappedMemoryRanges m) ≤ 1
      ∧ steps.count (.invalidateMappedMemoryRanges m) ≤ 1)

instance (steps : List Step) : Decidable (sync_while_mapped steps) := by
  unfold sync_while_mapped; infer_instance

instance (steps : List Step) : Decidable (sync_between_mappings steps) := by
  unfold sync_between_mappings
  exact @instDecidableAnd _ _ inferInstance
    (@instDecidableAnd _ _ inferInstance (@instDecidableAnd _ _ inferInstance inferInstance))

instance (steps : List Step) : Decidable (mapping_exclusive steps) := by
  unfold mapping_exclusive; infer_instance

/-! ## A host-visible memory device -/

/-- The contents of the two memory blocks. -/
abbrev Memory := Mem → Ptr

/-- The host stores `n` bytes from `p` at offset 0 of block `m`. -/
def Memory.store (m : Mem) (p : Ptr) (n : Nat) (s : Memory) : Memory :=
  fun b => if b = m then (fun i => if i < n then p i else s m i) else s b

/-- Modelled from the spec: `vkutil::copy_buffer` is not among the translated
sources.  Section 4.3: "on return, `length` bytes starting at offset 0 of
`source` are present at offset 0 of `destination`". -/
def Memory.copy (source destination : Mem) (n : Nat) (s : Memory) : Memory :=
  fun b =>
    if b = destination then (fun i => if i < n then s source i else s destination i)
    else s b

/-- Modelled from the spec: the Vulkan device is not among the translated
sources.  Host-visible memory in which building, mapping, unmapping, flushing
and invalidating always succeed and leave the contents unchanged, a mapped
pointer reads and writes the contents directly, and `copy_buffer` is the
given transfer. -/
def host_memory (copy : Mem → Mem → Nat → Memory → Except VkError Memory) :
    VulkanState Memory where
  build := fun _ _ _ _ s => .ok s
  mapMemory := fun _ _ _ s => .ok s
  unmapMemory := fun _ s => s
  flushMappedMemoryRanges := fun _ _ _ s => .ok s
  invalidateMappedMemoryRanges := fun _ _ _ s => .ok s
  copy_buffer := copy
  load := fun m s => s m
  store := Memory.store

/-- The transfer that always succeeds with `Memory.copy`. -/
def faithful_copy (source destination : Mem) (n : Nat) (s : Memory) :
    Except VkError Memory :=
  .ok (Memory.copy source destination n s)

/-- The device whose `copy_buffer` transfers the bytes. -/
def copying_device : VulkanState Memory :=
  host_memory faithful_copy

/-- The device whose `copy_buffer` returns without transferring anything. -/
def idle_device : VulkanState Memory :=
  host_memory (fun _ _ _ s => .ok s)

/-- Memory holding the byte `c` everywhere. -/
def Memory.const (c : Nat) : Memory := fun _ _ => c

/-- A line that is neither an outcome line of the final check, nor the closing
line, nor a total of zero mismatches. -/
def Msg.preliminary : Msg → Bool
  | .passed => false
  | .failed => false
  | .finished => false
  | .total 0 _ => false
  | _ => true

/-- The lines of lines 136-159 for an expected and an actual image: the
outcome line and, in the failure branch, the mismatch report. -/
def check_lines (expected actual : Ptr) : List Msg :=
  if memcmp_eq_zero expected actual TEST_BUFFER_SIZE then [Msg.passed]
  else Msg.failed :: report_mismatches expected actual

/-! ## The source pattern -/

theorem length_fill_loop (f : Nat → Nat) (N n : Nat) :
    ((List.range n).foldl (fun v i => v.set i (f i)) (List.replicate N 0)).length = N := by
  induction n with
  | zero => simp
  | succ n ih => simp [List.range_succ, List.foldl_append, ih]

theorem getD_fill_loop (f : Nat → Nat) (N n i : Nat) :
    ((List.range n).foldl (fun v i => v.set i (f i)) (List.replicate N 0)).getD i 0
      = if i < n ∧ i < N then f i else 0 := by
  induction n with
  | zero =>
    simp only [List.getD_eq_getElem?_getD, List.getElem?_replicate, List.range_zero,
      List.foldl_nil, Nat.not_lt_zero, false_and, if_false]
    split <;> rfl
  | succ n ih =>
    have hlen := length_fill_loop f N n
    simp only [List.getD_eq_getElem?_getD] at ih ⊢
    rw [List.range_succ, List.foldl_append]
    simp only [List.foldl_cons, List.foldl_nil, List.getElem?_set]
    by_cases hni : n = i
    · subst hni
      by_cases hN : n < N
      · simp [hlen, hN]
      · simp [hlen, hN]
    · have hne : ¬ i = n := fun h => hni h.symm
      simp only [hni, if_false, ih]
      by_cases h1 : i < n
      · have : i < n + 1 := by omega
        simp [h1, this]
      · have : ¬ i < n + 1 := by omega
        simp [h1, this]

theorem data_source_cpu_data (i : Nat) :
    data source_cpu_data i = if i < TEST_BUFFER_SIZE then i % 250 + 1 else 0 := by
  unfold data source_cpu_data
  rw [getD_fill_loop]
  by_cases h : i < TEST_BUFFER_SIZE
  · have h1 : (i % 250 + 1) % 256 = i % 250 + 1 := by omega
    simp [h, to_uint8, h1]
  · simp [h]

/-! ## Bookkeeping of a run -/

section RunLemmas

variable {σ : Type}

theorem Run.print_of_thrown (r : Run σ) (m : Msg) (h : r.thrown = none) :
    r.print m = { r with out := r.out ++ [m] } := by
  simp [Run.print, h]

theorem Run.exec_of_thrown (r : Run σ) (s : Step) (f : σ → σ) (h : r.thrown = none) :
    r.exec s f = { r with dev := f r.dev, steps := r.steps ++ [s] } := by
  simp [Run.exec, h]

theorem Run.prints_of_thrown (r : Run σ) (ms : List Msg) (h : r.thrown = none) :
    r.prints ms = { r with out := r.out ++ ms } := by
  induction ms generalizing r with
  | nil => simp [Run.prints]
  | cons m ms ih =>
    have := ih (r.print m) (by simp [Run.print, h])
    simp only [Run.prints, List.foldl_cons] at this ⊢
    rw [this, Run.print_of_thrown r m h]
    simp

theorem Run.print_steps (r : Run σ) (m : Msg) : (r.print m).steps = r.steps := by
  unfold Run.print; split <;> rfl

theorem Run.print_thrown (r : Run σ) (m : Msg) : (r.print m).thrown = r.thrown := by
  unfold Run.print; split <;> simp_all

theorem Run.print_dev (r : Run σ) (m : Msg) : (r.print m).dev = r.dev := by
  unfold Run.print; split <;> rfl

theorem Run.prints_steps (r : Run σ) (ms : List Msg) : (r.prints ms).steps = r.steps := by
  induction ms generalizing r with
  | nil => rfl
  | cons m ms ih =>
    simp only [Run.prints, List.foldl_cons] at ih ⊢
    rw [ih, Run.print_steps]

theorem Run.prints_thrown (r : Run σ) (ms : List Msg) : (r.prints ms).thrown = r.thrown := by
  induction ms generalizing r with
  | nil => rfl
  | cons m ms ih =>
    simp only [Run.prints, List.foldl_cons] at ih ⊢
    rw [ih, Run.print_thrown]

theorem Run.exec_out (r : Run σ) (s : Step) (f : σ → σ) : (r.exec s f).out = r.out := by
  unfold Run.exec; split <;> rfl

theorem Run.call_out (r : Run σ) (s : Step) (f : σ → Except VkError σ) :
    (r.call s f).out = r.out := by
  unfold Run.call; split
  · rfl
  · split <;> rfl

theorem Run.Follows.print {r : Run σ} {l : List Step} {cuts : List (List Step)}
    (h : r.Follows l cuts) (m : Msg) : (r.print m).Follows l cuts := by
  unfold Run.Follows
  rw [Run.print_steps, Run.print_thrown]
  exact h

theorem Run.Follows.prints {r : Run σ} {l : List Step} {cuts : List (List Step)}
    (h : r.Follows l cuts) (ms : List Msg) : (r.prints ms).Follows l cuts := by
  unfold Run.Follows
  rw [Run.prints_steps, Run.prints_thrown]
  exact h

theorem Run.Follows.exec {r : Run σ} {l : List Step} {cuts : List (List Step)}
    (h : r.Follows l cuts) (s : Step) (f : σ → σ) :
    (r.exec s f).Follows (l ++ [s]) cuts := by
  unfold Run.exec
  split
  · next e he =>
    exact ⟨fun hn => by rw [he] at hn; exact absurd hn (by simp), fun _ => h.2 (by simp [he])⟩
  · next hn =>
    have hl := h.1 hn
    exact ⟨fun _ => by simp [hl], fun hc => absurd hn hc⟩

theorem Run.Follows.call {r : Run σ} {l : List Step} {cuts : List (List Step)}
    (h : r.Follows l cuts) (s : Step) (f : σ → Except VkError σ) :
    (r.call s f).Follows (l ++ [s]) (l :: cuts) := by
  unfold Run.call
  split
  · next e he =>
    exact ⟨fun hn => by rw [he] at hn; exact absurd hn (by simp),
      fun _ => List.mem_cons_of_mem _ (h.2 (by simp [he]))⟩
  · next hn =>
    have hl := h.1 hn
    split
    · exact ⟨fun _ => by simp [hl], fun hc => absurd hn hc⟩
    · exact ⟨fun hc => by simp at hc, fun _ => by simp [hl]⟩

theorem Run.Follows.ite {r₁ r₂ : Run σ} {l : List Step} {cuts : List (List Step)}
    (c : Bool) (h₁ : r₁.Follows l cuts) (h₂ : r₂.Follows l cuts) :
    (if c = true then r₁ else r₂).Follows l cuts := by
  cases c <;> simp [h₁, h₂]

theorem prepare_source_data_follows {r : Run σ} {l : List Step} {cuts : List (List Step)}
    (h : r.Follows l cuts) : (prepare_source_data r).Follows l cuts :=
  (h.print Msg.starting).print Msg.source_prepared

theorem fill_source_follows (vk : VulkanState σ) {r : Run σ} {l : List Step}
    {cuts : List (List Step)} (h : r.Follows l cuts) :
    (fill_source vk r).Follows
      (l ++ [.build .src, .mapMemory .src, .memcpy .src, .unmapMemory .src])
      ((l ++ [.build .src]) :: l :: cuts) := by
  have := (((((h.call (.build .src)
    (vk.build .src TEST_BUFFER_SIZE .eTransferSrc .eHostVisible)).call
    (.mapMemory .src) (vk.mapMemory .src 0 TEST_BUFFER_SIZE)).exec
    (.memcpy .src) (vk.store .src (data source_cpu_data) TEST_BUFFER_SIZE)).exec
    (.unmapMemory .src) (vk.unmapMemory .src)).print Msg.source_populated)
  simpa [fill_source] using this

theorem check_source_follows (vk : VulkanState σ) {r : Run σ} {l : List Step}
    {cuts : List (List Step)} (h : r.Follows l cuts) :
    (check_source vk r).Follows
      (l ++ [.mapMemory .src, .memcmp .src, .unmapMemory .src]) (l :: cuts) := by
  have h1 := (h.call (.mapMemory .src) (vk.mapMemory .src 0 TEST_BUFFER_SIZE)).exec
    (.memcmp .src) id
  have h2 := Run.Follows.ite
    (memcmp_eq_zero (data source_cpu_data)
      (vk.load .src (r.call (.mapMemory .src) (vk.mapMemory .src 0 TEST_BUFFER_SIZE)).dev)
      TEST_BUFFER_SIZE)
    (h1.print Msg.source_identical)
    ((h1.print Msg.source_differ).prints
      (report_mismatches (data source_cpu_data)
        (vk.load .src (r.call (.mapMemory .src) (vk.mapMemory .src 0 TEST_BUFFER_SIZE)).dev)))
  have h3 := h2.exec (.unmapMemory .src) (vk.unmapMemory .src)
  simpa [check_source] using h3

theorem flush_source_follows (vk : VulkanState σ) {r : Run σ} {l : List Step}
    {cuts : List (List Step)} (h : r.Follows l cuts) :
    (flush_source vk r).Follows (l ++ [.flushMappedMemoryRanges .src]) (l :: cuts) :=
  (h.call (.flushMappedMemoryRanges .src)
    (vk.flushMappedMemoryRanges .src 0 VK_WHOLE_SIZE)).print Msg.flushed

theorem prefill_destination_follows (vk : VulkanState σ) {r : Run σ} {l : List Step}
    {cuts : List (List Step)} (h : r.Follows l cuts) :
    (prefill_destination vk r).Follows
      (l ++ [.build .dst, .mapMemory .dst, .memset .dst, .unmapMemory .dst])
      ((l ++ [.build .dst]) :: l :: cuts) := by
  have := ((((((h.call (.build .dst)
    (vk.build .dst TEST_BUFFER_SIZE .eTransferDst .eHostVisible)).print
    Msg.destination_created).call
    (.mapMemory .dst) (vk.mapMemory .dst 0 TEST_BUFFER_SIZE)).exec
    (.memset .dst) (vk.store .dst (fill_byte 0x00) TEST_BUFFER_SIZE)).exec
    (.unmapMemory .dst) (vk.unmapMemory .dst)).print Msg.destination_prefilled)
  simpa [prefill_destination] using this

theorem copy_and_invalidate_follows (vk : VulkanState σ) {r : Run σ} {l : List Step}
    {cuts : List (List Step)} (h : r.Follows l cuts) :
    (copy_and_invalidate vk r).Follows
      (l ++ [.copy_buffer, .invalidateMappedMemoryRanges .dst])
      ((l ++ [.copy_buffer]) :: l :: cuts) := by
  have := (((((h.print (Msg.calling_copy TEST_BUFFER_SIZE)).call .copy_buffer
    (vk.copy_buffer .src .dst TEST_BUFFER_SIZE)).print Msg.copy_returned).call
    (.invalidateMappedMemoryRanges .dst)
    (vk.invalidateMappedMemoryRanges .dst 0 VK_WHOLE_SIZE)).print Msg.invalidated)
  simpa [copy_and_invalidate] using this

theorem map_destination_follows (vk : VulkanState σ) {r : Run σ} {l : List Step}
    {cuts : List (List Step)} (h : r.Follows l cuts) :
    (map_destination vk r).Follows (l ++ [.mapMemory .dst]) (l :: cuts) :=
  (h.print Msg.verifying).call (.mapMemory .dst) (vk.mapMemory .dst 0 TEST_BUFFER_SIZE)

theorem verify_destination_follows (vk : VulkanState σ) {r : Run σ} {l : List Step}
    {cuts : List (List Step)} (h : r.Follows l cuts) :
    (verify_destination vk r).Follows (l ++ [.memcmp .dst, .unmapMemory .dst]) cuts := by
  have h1 := h.exec (.memcmp .dst) id
  have h2 := Run.Follows.ite
    (memcmp_eq_zero (data source_cpu_data) (vk.load .dst r.dev) TEST_BUFFER_SIZE)
    (h1.print Msg.passed)
    ((h1.print Msg.failed).prints
      (report_mismatches (data source_cpu_data) (vk.load .dst r.dev)))
  have h3 := h2.exec (.unmapMemory .dst) (vk.unmapMemory .dst)
  simpa [verify_destination] using h3

theorem until_mapped_follows (vk : VulkanState σ) (s0 : σ) :
    (until_mapped vk s0).Follows (copy_test_steps.take 15)
      (copy_test_cuts.map (fun k => copy_test_steps.take k)) := by
  have h0 : (⟨s0, [], [], none⟩ : Run σ).Follows [] [] :=
    ⟨fun _ => rfl, fun h => absurd rfl h⟩
  have := map_destination_follows vk (copy_and_invalidate_follows vk
    (prefill_destination_follows vk (flush_source_follows vk (check_source_follows vk
      (fill_source_follows vk (prepare_source_data_follows h0))))))
  simpa [until_mapped, until_prefilled, copy_test_steps, copy_test_cuts] using this

/-- Whatever the device does: a run of `copy_test` that comes through without
an exception has completed exactly `copy_test_steps`; a run ended by an
exception has completed the steps before the call that threw. -/
theorem copy_test_follows (vk : VulkanState σ) (s0 : σ) :
    (copy_test vk s0).Follows copy_test_steps
      (copy_test_cuts.map (fun k => copy_test_steps.take k)) := by
  have := (verify_destination_follows vk (until_mapped_follows vk s0)).print Msg.finished
  simpa [copy_test, copy_test_steps] using this

/-! ## What a run writes -/

theorem Run.all_print {P : Msg → Prop} {r : Run σ} (h : ∀ m ∈ r.out, P m) {x : Msg}
    (hx : P x) : ∀ m ∈ (r.print x).out, P m := by
  unfold Run.print
  split
  · exact h
  · intro m hm
    simp only [List.mem_append, List.mem_singleton] at hm
    rcases hm with hm | hm
    · exact h m hm
    · exact hm ▸ hx

theorem Run.all_prints {P : Msg → Prop} {r : Run σ} (h : ∀ m ∈ r.out, P m)
    {ms : List Msg} (hms : ∀ x ∈ ms, P x) : ∀ m ∈ (r.prints ms).out, P m := by
  induction ms generalizing r with
  | nil => exact h
  | cons x ms ih =>
    simp only [Run.prints, List.foldl_cons] at ih ⊢
    exact ih (Run.all_print h (hms x (List.mem_cons_self _ _)))
      (fun y hy => hms y (List.mem_cons_of_mem _ hy))

theorem Run.all_exec {P : Msg → Prop} {r : Run σ} (h : ∀ m ∈ r.out, P m)
    (s : Step) (f : σ → σ) : ∀ m ∈ (r.exec s f).out, P m := by
  rw [Run.exec_out]; exact h

theorem Run.all_call {P : Msg → Prop} {r : Run σ} (h : ∀ m ∈ r.out, P m)
    (s : Step) (f : σ → Except VkError σ) : ∀ m ∈ (r.call s f).out, P m := by
  rw [Run.call_out]; exact h

end RunLemmas

/-! ## The counting loop -/

theorem mismatch_loop_succ (e a : Ptr) (n : Nat) :
    mismatch_loop e a (n + 1) = mismatch_step e a (mismatch_loop e a n) n := by
  simp [mismatch_loop, List.range_succ, List.foldl_append]

theorem mismatching_succ (e a : Ptr) (n : Nat) :
    mismatching e a (n + 1) = mismatching e a n ++ (if e n ≠ a n then [n] else []) := by
  unfold mismatching
  rw [List.range_succ, List.filter_append]
  by_cases h : e n = a n <;> simp [h]

theorem length_mismatching_le (e a : Ptr) (n : Nat) :
    (mismatching e a n).length ≤ n := by
  unfold mismatching
  exact (List.length_filter_le _ _).trans (by simp)

theorem mem_mismatching (e a : Ptr) (n i : Nat) :
    i ∈ mismatching e a n ↔ i < n ∧ e i ≠ a i := by
  simp [mismatching]

theorem mismatching_pairwise (e a : Ptr) (n : Nat) :
    (mismatching e a n).Pairwise (· < ·) := by
  unfold mismatching
  exact List.Pairwise.sublist (List.filter_sublist _) (List.pairwise_lt_range n)

/-- The loop invariant in closed form: after `n` iterations the counter is the
number of mismatching indices below `n` and the printed lines are those of the
first `max_mismatches_to_print` of them. -/
theorem mismatch_loop_eq (e a : Ptr) (n : Nat) (hn : n < 2 ^ 64) :
    mismatch_loop e a n =
      ((mismatching e a n).length,
        ((mismatching e a n).take max_mismatches_to_print).map (mismatch_at e a)) := by
  induction n with
  | zero => simp [mismatch_loop, mismatching]
  | succ n ih =>
    have hle := length_mismatching_le e a n
    rw [mismatch_loop_succ, ih (by omega), mismatching_succ]
    unfold mismatch_step
    by_cases h : e n = a n
    · simp [h]
    · have hmod : ((mismatching e a n).length + 1) % 2 ^ 64 = (mismatching e a n).length + 1 :=
        Nat.mod_eq_of_lt (by omega)
      simp only [ne_eq, h, not_false_eq_true, if_true, hmod, List.length_append,
        List.length_singleton]
      by_cases hlt : (mismatching e a n).length < max_mismatches_to_print
      · have h1 : (mismatching e a n ++ [n]).length ≤ max_mismatches_to_print := by
          simp; omega
        rw [if_pos hlt, List.take_of_length_le h1, List.take_of_length_le (by omega)]
        simp [mismatch_at]
      · have h1 : max_mismatches_to_print ≤ (mismatching e a n).length := by omega
        rw [if_neg hlt, List.take_append_of_le_length h1]

theorem memcmp_eq_zero_iff (e a : Ptr) (n : Nat) :
    memcmp_eq_zero e a n = true ↔ ∀ i, i < n → e i = a i := by
  simp [memcmp_eq_zero]

theorem mismatching_eq_nil_iff (e a : Ptr) (n : Nat) :
    mismatching e a n = [] ↔ ∀ i, i < n → e i = a i := by
  simp [mismatching, List.filter_eq_nil_iff]

theorem TEST_BUFFER_SIZE_lt : TEST_BUFFER_SIZE < 2 ^ 64 := by
  unfold TEST_BUFFER_SIZE; omega

theorem mismatches_found_eq (e a : Ptr) :
    mismatches_found e a = (mismatching e a TEST_BUFFER_SIZE).length := by
  unfold mismatches_found
  rw [mismatch_loop_eq e a _ TEST_BUFFER_SIZE_lt]

theorem mismatch_lines_eq (e a : Ptr) :
    mismatch_lines e a =
      ((mismatching e a TEST_BUFFER_SIZE).take max_mismatches_to_print).map
        (mismatch_at e a) := by
  unfold mismatch_lines
  rw [mismatch_loop_eq e a _ TEST_BUFFER_SIZE_lt]

theorem mismatches_found_pos_iff (e a : Ptr) :
    0 < mismatches_found e a ↔ memcmp_eq_zero e a TEST_BUFFER_SIZE = false := by
  rw [mismatches_found_eq, List.length_pos, ne_eq, mismatching_eq_nil_iff,
    ← memcmp_eq_zero_iff]
  simp

theorem mismatches_found_eq_zero_iff (e a : Ptr) :
    mismatches_found e a = 0 ↔ memcmp_eq_zero e a TEST_BUFFER_SIZE = true := by
  rw [mismatches_found_eq, List.length_eq_zero, mismatching_eq_nil_iff,
    ← memcmp_eq_zero_iff]

theorem mem_report_mismatches (e a : Ptr) (m : Msg) :
    m ∈ report_mismatches e a ↔
      m ∈ mismatch_lines e a ∨ m = Msg.total (mismatches_found e a) TEST_BUFFER_SIZE
        ∨ (m = Msg.further ∧ max_mismatches_to_print < mismatches_found e a) := by
  unfold report_mismatches
  by_cases h : max_mismatches_to_print < mismatches_found e a
  · have h0 : 0 < mismatches_found e a := by omega
    simp [h, h0]
  · simp [h]

theorem is_mismatch_of_mem_mismatch_lines (e a : Ptr) (m : Msg)
    (h : m ∈ mismatch_lines e a) : m.is_mismatch = true := by
  rw [mismatch_lines_eq] at h
  simp only [List.mem_map] at h
  obtain ⟨i, _, rfl⟩ := h
  rfl

theorem preliminary_of_mem_report (e a : Ptr)
    (hne : memcmp_eq_zero e a TEST_BUFFER_SIZE = false) (m : Msg)
    (h : m ∈ report_mismatches e a) : m.preliminary = true := by
  rw [mem_report_mismatches] at h
  rcases h with h | h | ⟨h, _⟩
  · have := is_mismatch_of_mem_mismatch_lines e a m h
    cases m <;> simp_all [Msg.is_mismatch, Msg.preliminary]
  · have hpos := (mismatches_found_pos_iff e a).2 hne
    subst h
    cases hk : mismatches_found e a with
    | zero => omega
    | succ k => rfl
  · subst h; rfl

section Output

variable {σ : Type}

theorem prepare_source_data_preliminary {r : Run σ}
    (h : ∀ m ∈ r.out, m.preliminary = true) :
    ∀ m ∈ (prepare_source_data r).out, m.preliminary = true := by
  unfold prepare_source_data
  dsimp only
  repeat first
    | exact h
    | apply Run.all_exec
    | apply Run.all_call
    | (apply Run.all_print; rotate_left; exact rfl)

theorem fill_source_preliminary (vk : VulkanState σ) {r : Run σ}
    (h : ∀ m ∈ r.out, m.preliminary = true) :
    ∀ m ∈ (fill_source vk r).out, m.preliminary = true := by
  unfold fill_source
  dsimp only
  repeat first
    | exact h
    | apply Run.all_exec
    | apply Run.all_call
    | (apply Run.all_print; rotate_left; exact rfl)

theorem check_source_preliminary (vk : VulkanState σ) {r : Run σ}
    (h : ∀ m ∈ r.out, m.preliminary = true) :
    ∀ m ∈ (check_source vk r).out, m.preliminary = true := by
  unfold check_source
  apply Run.all_exec
  have h1 := Run.all_exec (Run.all_call h (.mapMemory .src)
    (vk.mapMemory .src 0 TEST_BUFFER_SIZE)) (.memcmp .src) id
  split
  · exact Run.all_print h1 (x := Msg.source_identical) rfl
  · next hc =>
    exact Run.all_prints (Run.all_print h1 (x := Msg.source_differ) rfl)
      (preliminary_of_mem_report _ _ (by simpa using hc))

theorem flush_source_preliminary (vk : VulkanState σ) {r : Run σ}
    (h : ∀ m ∈ r.out, m.preliminary = true) :
    ∀ m ∈ (flush_source vk r).out, m.preliminary = true := by
  unfold flush_source
  dsimp only
  repeat first
    | exact h
    | apply Run.all_exec
    | apply Run.all_call
    | (apply Run.all_print; rotate_left; exact rfl)

theorem prefill_destination_preliminary (vk : VulkanState σ) {r : Run σ}
    (h : ∀ m ∈ r.out, m.preliminary = true) :
    ∀ m ∈ (prefill_destination vk r).out, m.preliminary = true := by
  unfold prefill_destination
  dsimp only
  repeat first
    | exact h
    | apply Run.all_exec
    | apply Run.all_call
    | (apply Run.all_print; rotate_left; exact rfl)

theorem copy_and_invalidate_preliminary (vk : VulkanState σ) {r : Run σ}
    (h : ∀ m ∈ r.out, m.preliminary = true) :
    ∀ m ∈ (copy_and_invalidate vk r).out, m.preliminary = true := by
  unfold copy_and_invalidate
  dsimp only
  repeat first
    | exact h
    | apply Run.all_exec
    | apply Run.all_call
    | (apply Run.all_print; rotate_left; exact rfl)

theorem map_destination_preliminary (vk : VulkanState σ) {r : Run σ}
    (h : ∀ m ∈ r.out, m.preliminary = true) :
    ∀ m ∈ (map_destination vk r).out, m.preliminary = true := by
  unfold map_destination
  dsimp only
  repeat first
    | exact h
    | apply Run.all_exec
    | apply Run.all_call
    | (apply Run.all_print; rotate_left; exact rfl)

theorem copy_test_eq (vk : VulkanState σ) (s0 : σ) :
    copy_test vk s0 = (verify_destination vk (until_mapped vk s0)).print Msg.finished :=
  rfl

theorem until_mapped_eq (vk : VulkanState σ) (s0 : σ) :
    until_mapped vk s0 =
      map_destination vk (copy_and_invalidate vk (until_prefilled vk s0)) :=
  rfl

theorem until_prefilled_eq (vk : VulkanState σ) (s0 : σ) :
    until_prefilled vk s0 =
      prefill_destination vk (flush_source vk (check_source vk (fill_source vk
        (prepare_source_data ⟨s0, [], [], none⟩)))) :=
  rfl

theorem until_mapped_preliminary (vk : VulkanState σ) (s0 : σ) :
    ∀ m ∈ (until_mapped vk s0).out, m.preliminary = true := by
  have h0 : ∀ m ∈ (⟨s0, [], [], none⟩ : Run σ).out, m.preliminary = true := by simp
  rw [until_mapped_eq, until_prefilled_eq]
  exact map_destination_preliminary vk (copy_and_invalidate_preliminary vk
    (prefill_destination_preliminary vk (flush_source_preliminary vk
      (check_source_preliminary vk (fill_source_preliminary vk
        (prepare_source_data_preliminary h0))))))

theorem verify_destination_of_thrown (vk : VulkanState σ) (r : Run σ)
    (h : r.thrown = none) :
    verify_destination vk r =
      { dev := vk.unmapMemory .dst r.dev,
        steps := r.steps ++ [.memcmp .dst, .unmapMemory .dst],
        out := r.out ++ check_lines (data source_cpu_data) (vk.load .dst r.dev),
        thrown := none } := by
  unfold verify_destination check_lines
  by_cases hc : memcmp_eq_zero (data source_cpu_data) (vk.load .dst r.dev)
      TEST_BUFFER_SIZE = true
  · simp [hc, Run.print_of_thrown, Run.exec_of_thrown, h]
  · simp [hc, Run.print_of_thrown, Run.exec_of_thrown, Run.prints_of_thrown, h]

/-- The run once the final check is reached: no exception, all steps, and the
lines of the check followed by the closing line. -/
theorem copy_test_of_reached (vk : VulkanState σ) (s0 : σ)
    (h : (until_mapped vk s0).thrown = none) :
    (copy_test vk s0).thrown = none ∧
    (copy_test vk s0).steps = copy_test_steps ∧
    (copy_test vk s0).dev = vk.unmapMemory .dst (until_mapped vk s0).dev ∧
    (copy_test vk s0).out = (until_mapped vk s0).out
      ++ check_lines (data source_cpu_data) (p_dst_check_map vk s0) ++ [Msg.finished] := by
  have hv := verify_destination_of_thrown vk (until_mapped vk s0) h
  have hthrown : (copy_test vk s0).thrown = none := by
    rw [copy_test_eq, Run.print_thrown, hv]
  refine ⟨hthrown, (copy_test_follows vk s0).1 hthrown, ?_, ?_⟩
  · rw [copy_test_eq, Run.print_dev, hv]
  · rw [copy_test_eq, hv, Run.print_of_thrown _ _ rfl]
    rfl

theorem verify_destination_of_thrown_some (vk : VulkanState σ) (r : Run σ)
    (h : r.thrown ≠ none) : (verify_destination vk r).print Msg.finished = r := by
  obtain ⟨e, he⟩ := Option.ne_none_iff_exists'.1 h
  have h1 : ∀ (r : Run σ) (x : VkError), r.thrown = some x →
      ∀ s f, r.exec s f = r := by
    intro r x hr s f; simp [Run.exec, hr]
  have h2 : ∀ (r : Run σ) (x : VkError), r.thrown = some x →
      ∀ m, r.print m = r := by
    intro r x hr m; simp [Run.print, hr]
  have h3 : ∀ (ms : List Msg) (r : Run σ) (x : VkError), r.thrown = some x →
      r.prints ms = r := by
    intro ms
    induction ms with
    | nil => intros; rfl
    | cons m ms ih =>
      intro r x hr
      simp only [Run.prints, List.foldl_cons] at ih ⊢
      rw [h2 r x hr]; exact ih r x hr
  unfold verify_destination
  simp only [h1 _ e he, h2 _ e he, h3 _ _ e he, ite_self]

theorem copy_test_of_not_reached (vk : VulkanState σ) (s0 : σ)
    (h : (until_mapped vk s0).thrown ≠ none) :
    copy_test vk s0 = until_mapped vk s0 := by
  rw [copy_test_eq]
  exact verify_destination_of_thrown_some vk _ h

end Output

/-! ## Runs on host-visible memory -/

section HostMemory

variable (copy : Mem → Mem → Nat → Memory → Except VkError Memory)

theorem store_same (m : Mem) (p : Ptr) (n : Nat) (s : Memory) (i : Nat) (h : i < n) :
    Memory.store m p n s m i = p i := by
  simp [Memory.store, h]

theorem store_other (m b : Mem) (p : Ptr) (n : Nat) (s : Memory) (h : b ≠ m) :
    Memory.store m p n s b = s b := by
  simp [Memory.store, h]

theorem copy_to (a b : Mem) (n : Nat) (s : Memory) (i : Nat) (h : i < n) :
    Memory.copy a b n s b i = s a i := by
  simp [Memory.copy, h]

theorem host_memory_load (m : Mem) (s : Memory) : (host_memory copy).load m s = s m :=
  rfl

theorem p_dst_check_map_eq {σ : Type} (vk : VulkanState σ) (s0 : σ) :
    p_dst_check_map vk s0 = vk.load .dst (until_mapped vk s0).dev :=
  rfl

theorem prepare_source_data_host (r : Run Memory) (h : r.thrown = none) :
    prepare_source_data r =
      { r with out := r.out ++ [Msg.starting, Msg.source_prepared] } := by
  simp [prepare_source_data, Run.print, h]

theorem fill_source_host (r : Run Memory) (h : r.thrown = none) :
    fill_source (host_memory copy) r =
      { dev := Memory.store .src (data source_cpu_data) TEST_BUFFER_SIZE r.dev,
        steps := r.steps ++ [.build .src, .mapMemory .src, .memcpy .src, .unmapMemory .src],
        out := r.out ++ [Msg.source_populated],
        thrown := none } := by
  simp [fill_source, host_memory, Run.call, Run.exec, Run.print, h]

theorem check_source_host (r : Run Memory) (h : r.thrown = none)
    (hsrc : ∀ i, i < TEST_BUFFER_SIZE → data source_cpu_data i = r.dev .src i) :
    check_source (host_memory copy) r =
      { dev := r.dev,
        steps := r.steps ++ [.mapMemory .src, .memcmp .src, .unmapMemory .src],
        out := r.out ++ [Msg.source_identical],
        thrown := none } := by
  have hc : memcmp_eq_zero (data source_cpu_data) (r.dev .src) TEST_BUFFER_SIZE = true :=
    (memcmp_eq_zero_iff _ _ _).2 hsrc
  have hcall : r.call (.mapMemory .src) ((host_memory copy).mapMemory .src 0 TEST_BUFFER_SIZE)
      = { r with steps := r.steps ++ [.mapMemory .src] } := by
    simp [host_memory, Run.call, h]
  have hload : (host_memory copy).load .src r.dev = r.dev .src := rfl
  unfold check_source
  simp only [hcall, hload, hc, if_true]
  simp [host_memory, Run.exec, Run.print, h]

theorem flush_source_host (r : Run Memory) (h : r.thrown = none) :
    flush_source (host_memory copy) r =
      { dev := r.dev,
        steps := r.steps ++ [.flushMappedMemoryRanges .src],
        out := r.out ++ [Msg.flushed],
        thrown := none } := by
  simp [flush_source, host_memory, Run.call, Run.print, h]

theorem prefill_destination_host (r : Run Memory) (h : r.thrown = none) :
    prefill_destination (host_memory copy) r =
      { dev := Memory.store .dst (fill_byte 0x00) TEST_BUFFER_SIZE r.dev,
        steps := r.steps ++ [.build .dst, .mapMemory .dst, .memset .dst, .unmapMemory .dst],
        out := r.out ++ [Msg.destination_created, Msg.destination_prefilled],
        thrown := none } := by
  simp [prefill_destination, host_memory, Run.call, Run.exec, Run.print, h]

/-- On host-visible memory the run comes through the pre-fill without an
exception, the source self-check passes, and the memory holds the pattern in
the source block and zeros in the destination block. -/
theorem until_prefilled_host (s0 : Memory) :
    until_prefilled (host_memory copy) s0 =
      { dev := Memory.store .dst (fill_byte 0x00) TEST_BUFFER_SIZE
          (Memory.store .src (data source_cpu_data) TEST_BUFFER_SIZE s0),
        steps := copy_test_steps.take 12,
        out := [Msg.starting, Msg.source_prepared, Msg.source_populated,
          Msg.source_identical, Msg.flushed, Msg.destination_created,
          Msg.destination_prefilled],
        thrown := none } := by
  rw [until_prefilled_eq, prepare_source_data_host _ rfl, fill_source_host copy _ rfl,
    check_source_host copy _ rfl (fun i hi => (store_same .src _ _ s0 i hi).symm),
    flush_source_host copy _ rfl, prefill_destination_host copy _ rfl]
  simp [copy_test_steps]

theorem until_mapped_host (s0 s1 : Memory)
    (h : copy .src .dst TEST_BUFFER_SIZE
      (Memory.store .dst (fill_byte 0x00) TEST_BUFFER_SIZE
        (Memory.store .src (data source_cpu_data) TEST_BUFFER_SIZE s0)) = .ok s1) :
    until_mapped (host_memory copy) s0 =
      { dev := s1,
        steps := copy_test_steps.take 15,
        out := [Msg.starting, Msg.source_prepared, Msg.source_populated,
          Msg.source_identical, Msg.flushed, Msg.destination_created,
          Msg.destination_prefilled, Msg.calling_copy TEST_BUFFER_SIZE,
          Msg.copy_returned, Msg.invalidated, Msg.verifying],
        thrown := none } := by
  rw [until_mapped_eq, until_prefilled_host]
  simp [map_destination, copy_and_invalidate, host_memory, Run.call, Run.print,
    copy_test_steps, h]

theorem until_mapped_copying (s0 : Memory) :
    until_mapped copying_device s0 =
      { dev := Memory.copy .src .dst TEST_BUFFER_SIZE
          (Memory.store .dst (fill_byte 0x00) TEST_BUFFER_SIZE
            (Memory.store .src (data source_cpu_data) TEST_BUFFER_SIZE s0)),
        steps := copy_test_steps.take 15,
        out := [Msg.starting, Msg.source_prepared, Msg.source_populated,
          Msg.source_identical, Msg.flushed, Msg.destination_created,
          Msg.destination_prefilled, Msg.calling_copy TEST_BUFFER_SIZE,
          Msg.copy_returned, Msg.invalidated, Msg.verifying],
        thrown := none } := by
  unfold copying_device
  exact until_mapped_host faithful_copy s0 _ rfl

theorem until_mapped_idle (s0 : Memory) :
    until_mapped idle_device s0 =
      { dev := Memory.store .dst (fill_byte 0x00) TEST_BUFFER_SIZE
            (Memory.store .src (data source_cpu_data) TEST_BUFFER_SIZE s0),
        steps := copy_test_steps.take 15,
        out := [Msg.starting, Msg.source_prepared, Msg.source_populated,
          Msg.source_identical, Msg.flushed, Msg.destination_created,
          Msg.destination_prefilled, Msg.calling_copy TEST_BUFFER_SIZE,
          Msg.copy_returned, Msg.invalidated, Msg.verifying],
        thrown := none } := by
  unfold idle_device
  exact until_mapped_host _ s0 _ rfl

theorem until_mapped_idle_dev (s0 : Memory) :
    (until_mapped idle_device s0).dev =
      Memory.store .dst (fill_byte 0x00) TEST_BUFFER_SIZE
        (Memory.store .src (data source_cpu_data) TEST_BUFFER_SIZE s0) := by
  rw [until_mapped_idle]

theorem p_dst_check_map_idle (s0 : Memory) (i : Nat) (h : i < TEST_BUFFER_SIZE) :
    p_dst_check_map idle_device s0 i = 0 := by
  rw [p_dst_check_map_eq, until_mapped_idle_dev]
  unfold idle_device
  rw [host_memory_load, store_same _ _ _ _ _ h]
  rfl

end HostMemory

/-! ## Auxiliary facts for the claims -/

theorem getElem?_eq_some_getD (l : List Nat) (i : Nat) (h : i < l.length) :
    l[i]? = some (l.getD i 0) := by
  rw [List.getD_eq_getElem?_getD, List.getElem?_eq_getElem h]
  rfl

theorem length_source_cpu_data : source_cpu_data.length = TEST_BUFFER_SIZE := by
  unfold source_cpu_data
  exact length_fill_loop _ _ _

theorem getElem?_source_cpu_data (i : Nat) (h : i < TEST_BUFFER_SIZE) :
    source_cpu_data[i]? = some (i % 250 + 1) := by
  have hd := data_source_cpu_data i
  rw [if_pos h, data.eq_1] at hd
  rw [getElem?_eq_some_getD _ _ (length_source_cpu_data ▸ h), hd]

theorem filter_is_mismatch_report (e a : Ptr) :
    (report_mismatches e a).filter Msg.is_mismatch = mismatch_lines e a := by
  have h1 : (mismatch_lines e a).filter Msg.is_mismatch = mismatch_lines e a :=
    List.filter_eq_self.2 (fun m hm => is_mismatch_of_mem_mismatch_lines e a m hm)
  unfold report_mismatches
  rw [List.filter_append, List.filter_append, h1]
  split <;> simp [Msg.is_mismatch]

theorem mismatching_of_forall_ne (e a : Ptr) (n : Nat) (h : ∀ i, i < n → e i ≠ a i) :
    mismatching e a n = List.range n := by
  unfold mismatching
  exact List.filter_eq_self.2 (fun i hi => by simpa using h i (List.mem_range.1 hi))

theorem mem_take_lt_of_not_mem {l : List Nat} (hl : l.Pairwise (· < ·)) (n : Nat)
    {i j : Nat} (hi : i ∈ l.take n) (hj : j ∈ l) (hnj : j ∉ l.take n) : i < j := by
  have hsplit := List.take_append_drop n l
  have hj2 : j ∈ l.drop n := by
    rw [← hsplit, List.mem_append] at hj
    exact hj.resolve_left hnj
  rw [← hsplit, List.pairwise_append] at hl
  exact hl.2.2 i hi j hj2

section Verdict

variable {σ : Type}

theorem mem_check_lines_preliminary (e a : Ptr) (m : Msg) (h : m ∈ check_lines e a) :
    m = Msg.passed ∧ memcmp_eq_zero e a TEST_BUFFER_SIZE = true
    ∨ m = Msg.failed ∧ memcmp_eq_zero e a TEST_BUFFER_SIZE = false
    ∨ m.preliminary = true ∧ memcmp_eq_zero e a TEST_BUFFER_SIZE = false := by
  unfold check_lines at h
  cases hc : memcmp_eq_zero e a TEST_BUFFER_SIZE with
  | true =>
    rw [hc] at h
    simp only [if_true, List.mem_singleton] at h
    exact Or.inl ⟨h, rfl⟩
  | false =>
    rw [hc] at h
    simp only [Bool.false_eq_true, if_false, List.mem_cons] at h
    rcases h with h | h
    · exact Or.inr (Or.inl ⟨h, rfl⟩)
    · exact Or.inr (Or.inr ⟨preliminary_of_mem_report e a hc m h, rfl⟩)

theorem verified_iff (vk : VulkanState σ) (s0 : σ) (h : (until_mapped vk s0).thrown = none) :
    Verified (copy_test vk s0) ↔
      memcmp_eq_zero (data source_cpu_data) (p_dst_check_map vk s0) TEST_BUFFER_SIZE = true := by
  obtain ⟨_, _, _, hout⟩ := copy_test_of_reached vk s0 h
  unfold Verified
  rw [hout]
  simp only [List.mem_append, List.mem_singleton]
  constructor
  · rintro ((hm | hm) | hm)
    · have := until_mapped_preliminary vk s0 _ hm
      simp [Msg.preliminary] at this
    · rcases mem_check_lines_preliminary _ _ _ hm with ⟨_, hc⟩ | ⟨hx, _⟩ | ⟨hx, _⟩
      · exact hc
      · cases hx
      · simp [Msg.preliminary] at hx
    · cases hm
  · intro hc
    refine Or.inl (Or.inr ?_)
    unfold check_lines
    rw [hc]
    simp

theorem failed_iff (vk : VulkanState σ) (s0 : σ) (h : (until_mapped vk s0).thrown = none) :
    Failed (copy_test vk s0) ↔
      memcmp_eq_zero (data source_cpu_data) (p_dst_check_map vk s0) TEST_BUFFER_SIZE = false := by
  obtain ⟨_, _, _, hout⟩ := copy_test_of_reached vk s0 h
  unfold Failed
  rw [hout]
  simp only [List.mem_append, List.mem_singleton]
  constructor
  · rintro ((hm | hm) | hm)
    · have := until_mapped_preliminary vk s0 _ hm
      simp [Msg.preliminary] at this
    · rcases mem_check_lines_preliminary _ _ _ hm with ⟨hx, _⟩ | ⟨_, hc⟩ | ⟨_, hc⟩
      · cases hx
      · exact hc
      · exact hc
    · cases hm
  · intro hc
    refine Or.inl (Or.inr ?_)
    unfold check_lines
    rw [hc]
    simp

theorem total_zero_not_mem (vk : VulkanState σ) (s0 : σ) (n : Nat) :
    Msg.total 0 n ∉ (copy_test vk s0).out := by
  by_cases h : (until_mapped vk s0).thrown = none
  · obtain ⟨_, _, _, hout⟩ := copy_test_of_reached vk s0 h
    rw [hout]
    simp only [List.mem_append, List.mem_singleton, not_or]
    refine ⟨⟨?_, ?_⟩, by simp⟩
    · intro hm
      have := until_mapped_preliminary vk s0 _ hm
      simp [Msg.preliminary] at this
    · intro hm
      rcases mem_check_lines_preliminary _ _ _ hm with ⟨hx, _⟩ | ⟨hx, _⟩ | ⟨hx, _⟩
      · cases hx
      · cases hx
      · simp [Msg.preliminary] at hx
  · rw [copy_test_of_not_reached vk s0 h]
    intro hm
    have := until_mapped_preliminary vk s0 _ hm
    simp [Msg.preliminary] at this

end Verdict

theorem until_mapped_copying_thrown (s0 : Memory) :
    (until_mapped copying_device s0).thrown = none := by
  rw [until_mapped_copying]

theorem until_mapped_idle_thrown (s0 : Memory) :
    (until_mapped idle_device s0).thrown = none := by
  rw [until_mapped_idle]

theorem until_prefilled_host_dev (copy : Mem → Mem → Nat → Memory → Except VkError Memory)
    (s0 : Memory) :
    (until_prefilled (host_memory copy) s0).dev =
      Memory.store .dst (fill_byte 0x00) TEST_BUFFER_SIZE
        (Memory.store .src (data source_cpu_data) TEST_BUFFER_SIZE s0) := by
  rw [until_prefilled_host]

theorem until_prefilled_host_zero (copy : Mem → Mem → Nat → Memory → Except VkError Memory)
    (m0 : Memory) (i : Nat) (hi : i < TEST_BUFFER_SIZE) :
    (host_memory copy).load .dst (until_prefilled (host_memory copy) m0).dev i = 0x00 := by
  rw [until_prefilled_host_dev, host_memory_load, store_same _ _ _ _ _ hi]
  rfl

set_option maxRecDepth 100000 in
theorem three_mismatches :
    (mismatching (fun i => if i < 3 then 1 else 0) (fun _ => 0) TEST_BUFFER_SIZE).length = 3 := by
  decide

/-! ## The claims -/

/-- C3: for every index `i` below 4096 the byte stored at `source_cpu_data[i]`
is `(i mod 250) + 1`; it lies in `[1, 250]`, is not 0, and the cast to an
8-bit unsigned byte leaves `(i mod 250) + 1` unchanged. -/
theorem source_pattern_bytes (i : Nat) (h : i < TEST_BUFFER_SIZE) :
    source_cpu_data[i]? = some (i % 250 + 1)
    ∧ data source_cpu_data i = i % 250 + 1
    ∧ 1 ≤ data source_cpu_data i ∧ data source_cpu_data i ≤ 250
    ∧ data source_cpu_data i ≠ 0
    ∧ to_uint8 (i % 250 + 1) = i % 250 + 1 := by
  have hd := data_source_cpu_data i
  rw [if_pos h] at hd
  refine ⟨getElem?_source_cpu_data i h, hd, ?_, ?_, ?_, ?_⟩
  · omega
  · omega
  · omega
  · unfold to_uint8; omega

/-- An instance: the last index, 4095. -/
theorem source_pattern_bytes_witness :
    4095 < TEST_BUFFER_SIZE ∧ data source_cpu_data 4095 = 4095 % 250 + 1
      ∧ data source_cpu_data 4095 ≠ 0 :=
  ⟨by decide, (source_pattern_bytes 4095 (by decide)).2.1,
    (source_pattern_bytes 4095 (by decide)).2.2.2.2.1⟩

/-- C2: when the expected and the actual image differ in exactly `k ≥ 1` of
the 4096 positions, the verification loop ends with `mismatches_found = k`,
the report states the total `k` (and no other total), and the individual
mismatch lines number at most `min k 128`; nothing of this depends on `k`
being at most 128.  With `k ≥ 1` the comparison takes the failure branch, so
the loop does run. -/
theorem mismatch_count_exact (expected actual : Ptr) (k : Nat)
    (hk : (mismatching expected actual TEST_BUFFER_SIZE).length = k) (hpos : 1 ≤ k) :
    check_lines expected actual = Msg.failed :: report_mismatches expected actual
    ∧ mismatches_found expected actual = k
    ∧ Msg.total k TEST_BUFFER_SIZE ∈ report_mismatches expected actual
    ∧ (∀ j n, Msg.total j n ∈ report_mismatches expected actual → j = k)
    ∧ (mismatch_lines expected actual).length ≤ min k 128
    ∧ ((report_mismatches expected actual).filter Msg.is_mismatch).length ≤ min k 128 := by
  have hfound : mismatches_found expected actual = k := by rw [mismatches_found_eq, hk]
  have hlines : (mismatch_lines expected actual).length ≤ min k 128 := by
    rw [mismatch_lines_eq, List.length_map, List.length_take, hk, max_mismatches_to_print]
    omega
  refine ⟨?_, hfound, ?_, ?_, hlines, ?_⟩
  · have hne : memcmp_eq_zero expected actual TEST_BUFFER_SIZE = false :=
      (mismatches_found_pos_iff _ _).1 (by omega)
    simp [check_lines, hne]
  · rw [mem_report_mismatches, hfound]; exact Or.inr (Or.inl rfl)
  · intro j n hj
    rw [mem_report_mismatches] at hj
    rcases hj with hj | hj | ⟨hj, _⟩
    · have := is_mismatch_of_mem_mismatch_lines _ _ _ hj
      simp [Msg.is_mismatch] at this
    · rw [hfound] at hj
      injection hj
    · cases hj
  · rw [filter_is_mismatch_report]; exact hlines

/-- C10: when the expected and the actual image differ in exactly `k ≥ 1` of
the 4096 positions, the comparison takes the failure branch and the
individual mismatch lines of its report are exactly `min k 128` in number;
they are the lines of a strictly increasing list of mismatching indices, each
line carrying the expected and the actual byte at its index, and every
mismatching index not in the list is above all those in it; the notice that
further mismatches were not printed is written if and only if `k > 128`. -/
theorem sampled_diffs_smallest (expected actual : Ptr) (k : Nat)
    (hk : (mismatching expected actual TEST_BUFFER_SIZE).length = k) (hpos : 1 ≤ k) :
    ∃ idx : List Nat,
      mismatch_lines expected actual
        = idx.map (fun i => Msg.mismatch i (expected i) (actual i))
      ∧ check_lines expected actual = Msg.failed :: report_mismatches expected actual
      ∧ (report_mismatches expected actual).filter Msg.is_mismatch
        = mismatch_lines expected actual
      ∧ idx.length = min k 128
      ∧ idx.Pairwise (· < ·)
      ∧ (∀ i, i ∈ idx → i < TEST_BUFFER_SIZE ∧ expected i ≠ actual i)
      ∧ (∀ i, i ∈ idx → ∀ j, j < TEST_BUFFER_SIZE → expected j ≠ actual j → j ∉ idx → i < j)
      ∧ (Msg.further ∈ report_mismatches expected actual ↔ 128 < k) := by
  have hfound : mismatches_found expected actual = k := by rw [mismatches_found_eq, hk]
  refine ⟨(mismatching expected actual TEST_BUFFER_SIZE).take max_mismatches_to_print,
    ?_, ?_, filter_is_mismatch_report _ _, ?_, ?_, ?_, ?_, ?_⟩
  · rw [mismatch_lines_eq]; rfl
  · have hne : memcmp_eq_zero expected actual TEST_BUFFER_SIZE = false :=
      (mismatches_found_pos_iff _ _).1 (by omega)
    rw [check_lines.eq_1, hne, if_neg Bool.false_ne_true]
  · rw [List.length_take, hk, max_mismatches_to_print]; omega
  · exact List.Pairwise.sublist (List.take_sublist _ _) (mismatching_pairwise _ _ _)
  · intro i hi
    exact (mem_mismatching _ _ _ _).1 (List.mem_of_mem_take hi)
  · intro i hi j hj hne hnot
    exact mem_take_lt_of_not_mem (mismatching_pairwise _ _ _) _ hi
      ((mem_mismatching _ _ _ _).2 ⟨hj, hne⟩) hnot
  · rw [mem_report_mismatches, hfound]
    constructor
    · rintro (h | h | ⟨_, h⟩)
      · have := is_mismatch_of_mem_mismatch_lines _ _ _ h
        simp [Msg.is_mismatch] at this
      · cases h
      · simpa [max_mismatches_to_print] using h
    · intro h
      exact Or.inr (Or.inr ⟨rfl, by simpa [max_mismatches_to_print] using h⟩)

/-- An instance: two constant images that differ at all 4096 positions. -/
theorem mismatch_count_exact_witness :
    (mismatching (fun _ => 0xAA) (fun _ => 0x55) TEST_BUFFER_SIZE).length = 4096 ∧ 1 ≤ 4096
      ∧ mismatches_found (fun _ => 0xAA) (fun _ => 0x55) = 4096 :=
  have h : (mismatching (fun _ => 0xAA) (fun _ => 0x55) TEST_BUFFER_SIZE).length = 4096 := by
    rw [mismatching_of_forall_ne _ _ _ (fun _ _ => by decide), List.length_range]
    rfl
  ⟨h, by decide, (mismatch_count_exact _ _ 4096 h (by decide)).2.1⟩

/-- An instance: images that differ at the positions 0, 1 and 2 only. -/
theorem sampled_diffs_smallest_witness :
    (mismatching (fun i => if i < 3 then 1 else 0) (fun _ => 0) TEST_BUFFER_SIZE).length = 3
      ∧ 1 ≤ 3
      ∧ ∃ idx : List Nat,
          mismatch_lines (fun i => if i < 3 then 1 else 0) (fun _ => 0)
            = idx.map (fun i => Msg.mismatch i (if i < 3 then 1 else 0) 0)
          ∧ idx.length = min 3 128 :=
  ⟨three_mismatches, by decide,
    (sampled_diffs_smallest _ _ 3 three_mismatches (by decide)).elim
      fun idx hidx => ⟨idx, hidx.1, hidx.2.2.2.1⟩⟩

/-- C1: on host-visible memory whose map, unmap, flush and invalidate leave
the contents unchanged and whose `copy_buffer` succeeds and places the first
4096 source bytes at offset 0 of the destination, and from any initial
contents: the destination read back at the check equals the host pattern on
all 4096 bytes, no byte mismatches, the comparison takes the success branch,
the run is `Verified` and not `Failed`, no exception is thrown, no mismatch
line is written, and the output is the thirteen progress lines ending in
"PASSED" and "finished". -/
theorem copy_test_round_trip
    (copy : Mem → Mem → Nat → Memory → Except VkError Memory)
    (hcopy : ∀ s : Memory, ∃ s1 : Memory,
      copy .src .dst TEST_BUFFER_SIZE s = .ok s1
        ∧ ∀ i, i < TEST_BUFFER_SIZE → s1 .dst i = s .src i)
    (s0 : Memory) :
    (∀ i, i < TEST_BUFFER_SIZE →
      p_dst_check_map (host_memory copy) s0 i = data source_cpu_data i)
    ∧ mismatching (data source_cpu_data) (p_dst_check_map (host_memory copy) s0)
        TEST_BUFFER_SIZE = []
    ∧ mismatches_found (data source_cpu_data) (p_dst_check_map (host_memory copy) s0) = 0
    ∧ memcmp_eq_zero (data source_cpu_data) (p_dst_check_map (host_memory copy) s0)
        TEST_BUFFER_SIZE = true
    ∧ Verified (copy_test (host_memory copy) s0)
    ∧ ¬ Failed (copy_test (host_memory copy) s0)
    ∧ (copy_test (host_memory copy) s0).thrown = none
    ∧ (∀ m, m ∈ (copy_test (host_memory copy) s0).out → m.is_mismatch = false)
    ∧ (copy_test (host_memory copy) s0).out =
        [Msg.starting, Msg.source_prepared, Msg.source_populated,
          Msg.source_identical, Msg.flushed, Msg.destination_created,
          Msg.destination_prefilled, Msg.calling_copy TEST_BUFFER_SIZE,
          Msg.copy_returned, Msg.invalidated, Msg.verifying, Msg.passed,
          Msg.finished] := by
  obtain ⟨s1, hs1, hbytes⟩ := hcopy (Memory.store .dst (fill_byte 0x00) TEST_BUFFER_SIZE
    (Memory.store .src (data source_cpu_data) TEST_BUFFER_SIZE s0))
  have hum := until_mapped_host copy s0 s1 hs1
  have hreach : (until_mapped (host_memory copy) s0).thrown = none := by rw [hum]
  have hdev : (until_mapped (host_memory copy) s0).dev = s1 := by rw [hum]
  have huout : (until_mapped (host_memory copy) s0).out =
      [Msg.starting, Msg.source_prepared, Msg.source_populated,
        Msg.source_identical, Msg.flushed, Msg.destination_created,
        Msg.destination_prefilled, Msg.calling_copy TEST_BUFFER_SIZE,
        Msg.copy_returned, Msg.invalidated, Msg.verifying] := by rw [hum]
  obtain ⟨hthrown, _, _, hout⟩ := copy_test_of_reached (host_memory copy) s0 hreach
  have heq : ∀ i, i < TEST_BUFFER_SIZE →
      p_dst_check_map (host_memory copy) s0 i = data source_cpu_data i := by
    intro i hi
    rw [p_dst_check_map_eq, hdev, host_memory_load, hbytes i hi,
      store_other .dst .src _ _ _ (by decide), store_same _ _ _ _ _ hi]
  have hmem : memcmp_eq_zero (data source_cpu_data) (p_dst_check_map (host_memory copy) s0)
      TEST_BUFFER_SIZE = true :=
    (memcmp_eq_zero_iff _ _ _).2 (fun i hi => (heq i hi).symm)
  have hcl : check_lines (data source_cpu_data) (p_dst_check_map (host_memory copy) s0)
      = [Msg.passed] := by
    rw [check_lines.eq_1, hmem]
    rfl
  rw [hcl, huout] at hout
  have hout2 : (copy_test (host_memory copy) s0).out =
      [Msg.starting, Msg.source_prepared, Msg.source_populated,
        Msg.source_identical, Msg.flushed, Msg.destination_created,
        Msg.destination_prefilled, Msg.calling_copy TEST_BUFFER_SIZE,
        Msg.copy_returned, Msg.invalidated, Msg.verifying, Msg.passed,
        Msg.finished] := by
    rw [hout]; rfl
  refine ⟨heq, ?_, (mismatches_found_eq_zero_iff _ _).2 hmem, hmem, ?_, ?_, hthrown, ?_, hout2⟩
  · exact (mismatching_eq_nil_iff _ _ _).2 (fun i hi => (heq i hi).symm)
  · exact (verified_iff _ _ hreach).2 hmem
  · rw [failed_iff _ _ hreach, hmem]; simp
  · intro m hm
    rw [hout2] at hm
    simp only [List.mem_cons, List.mem_singleton, List.not_mem_nil, or_false] at hm
    rcases hm with h | h | h | h | h | h | h | h | h | h | h | h | h <;> subst h <;> rfl

/-- An instance: the transfer `faithful_copy`, from memory filled with `0xCD`. -/
theorem copy_test_round_trip_witness :
    (∀ s : Memory, ∃ s1 : Memory,
      faithful_copy .src .dst TEST_BUFFER_SIZE s = .ok s1
        ∧ ∀ i, i < TEST_BUFFER_SIZE → s1 .dst i = s .src i)
    ∧ Verified (copy_test (host_memory faithful_copy) (Memory.const 0xCD))
    ∧ mismatches_found (data source_cpu_data)
        (p_dst_check_map (host_memory faithful_copy) (Memory.const 0xCD)) = 0 :=
  have h : ∀ s : Memory, ∃ s1 : Memory,
      faithful_copy .src .dst TEST_BUFFER_SIZE s = .ok s1
        ∧ ∀ i, i < TEST_BUFFER_SIZE → s1 .dst i = s .src i :=
    fun s => ⟨Memory.copy .src .dst TEST_BUFFER_SIZE s, rfl, fun i hi => copy_to _ _ _ _ i hi⟩
  ⟨h, (copy_test_round_trip faithful_copy h (Memory.const 0xCD)).2.2.2.2.1,
    (copy_test_round_trip faithful_copy h (Memory.const 0xCD)).2.2.1⟩

/-- C4: on host-visible memory all 4096 destination bytes are 0 after the
pre-fill step; and on any device, when the run reaches the check and reads
back a destination that is all zero, every index mismatches (no pattern
byte is 0), the counting loop ends at 4096, the run is `Failed` and not
`Verified`, and the check writes the failure line followed by the report:
the mismatch lines, the total 4096 and the notice of further mismatches. -/
theorem zero_fill_sentinel_fails {σ : Type} (vk : VulkanState σ) (s0 : σ)
    (hreach : (until_mapped vk s0).thrown = none)
    (hzero : ∀ i, i < TEST_BUFFER_SIZE → p_dst_check_map vk s0 i = 0) :
    (∀ (copy : Mem → Mem → Nat → Memory → Except VkError Memory) (m0 : Memory) (i : Nat),
      i < TEST_BUFFER_SIZE →
        (host_memory copy).load .dst (until_prefilled (host_memory copy) m0).dev i = 0x00)
    ∧ (∀ i, i < TEST_BUFFER_SIZE → data source_cpu_data i ≠ p_dst_check_map vk s0 i)
    ∧ mismatches_found (data source_cpu_data) (p_dst_check_map vk s0) = 4096
    ∧ ¬ Verified (copy_test vk s0)
    ∧ Failed (copy_test vk s0)
    ∧ (copy_test vk s0).out = (until_mapped vk s0).out
        ++ (Msg.failed :: report_mismatches (data source_cpu_data) (p_dst_check_map vk s0))
        ++ [Msg.finished]
    ∧ report_mismatches (data source_cpu_data) (p_dst_check_map vk s0)
        = mismatch_lines (data source_cpu_data) (p_dst_check_map vk s0)
            ++ [Msg.total 4096 TEST_BUFFER_SIZE] ++ [Msg.further] := by
  have hne : ∀ i, i < TEST_BUFFER_SIZE →
      data source_cpu_data i ≠ p_dst_check_map vk s0 i := by
    intro i hi
    rw [hzero i hi, data_source_cpu_data, if_pos hi]
    omega
  have hfound : mismatches_found (data source_cpu_data) (p_dst_check_map vk s0) = 4096 := by
    rw [mismatches_found_eq, mismatching_of_forall_ne _ _ _ hne, List.length_range]
    rfl
  have hmem : memcmp_eq_zero (data source_cpu_data) (p_dst_check_map vk s0)
      TEST_BUFFER_SIZE = false :=
    (mismatches_found_pos_iff _ _).1 (by omega)
  obtain ⟨_, _, _, hout⟩ := copy_test_of_reached vk s0 hreach
  refine ⟨?_, hne, hfound, ?_, (failed_iff vk s0 hreach).2 hmem, ?_, ?_⟩
  · exact until_prefilled_host_zero
  · rw [verified_iff vk s0 hreach, hmem]; simp
  · rw [hout, check_lines.eq_1, hmem, if_neg Bool.false_ne_true]
  · rw [report_mismatches.eq_1, hfound, if_pos ⟨by decide, by decide⟩]

/-- An instance: the device whose `copy_buffer` does nothing, from memory
filled with `0xFF`. -/
theorem zero_fill_sentinel_fails_witness :
    (until_mapped idle_device (Memory.const 0xFF)).thrown = none
    ∧ (∀ i, i < TEST_BUFFER_SIZE → p_dst_check_map idle_device (Memory.const 0xFF) i = 0)
    ∧ mismatches_found (data source_cpu_data)
        (p_dst_check_map idle_device (Memory.const 0xFF)) = 4096
    ∧ Failed (copy_test idle_device (Memory.const 0xFF)) :=
  have h := zero_fill_sentinel_fails idle_device (Memory.const 0xFF)
    (until_mapped_idle_thrown _) (p_dst_check_map_idle _)
  ⟨until_mapped_idle_thrown _, p_dst_check_map_idle _, h.2.2.1, h.2.2.2.2.1⟩

/-- C5: for every destination image read back at the check, the run is
`Verified` exactly when all 4096 bytes equal the pattern, and `Failed`
exactly when the number of mismatching bytes is positive; it is one or the
other and never both; in the failure branch the printed total is the
positive count of the loop, no total of 0 is ever written, and the `memcmp`
test succeeds exactly when the counting loop ends at 0. -/
theorem copy_test_verdict {σ : Type} (vk : VulkanState σ) (s0 : σ)
    (hreach : (until_mapped vk s0).thrown = none) :
    (Verified (copy_test vk s0) ↔
      ∀ i, i < TEST_BUFFER_SIZE → p_dst_check_map vk s0 i = data source_cpu_data i)
    ∧ (Failed (copy_test vk s0) ↔
        0 < (mismatching (data source_cpu_data) (p_dst_check_map vk s0)
          TEST_BUFFER_SIZE).length)
    ∧ (Failed (copy_test vk s0) ↔ ¬ Verified (copy_test vk s0))
    ∧ (Failed (copy_test vk s0) →
        Msg.total (mismatches_found (data source_cpu_data) (p_dst_check_map vk s0))
            TEST_BUFFER_SIZE ∈ (copy_test vk s0).out
        ∧ 0 < mismatches_found (data source_cpu_data) (p_dst_check_map vk s0))
    ∧ (∀ n, Msg.total 0 n ∉ (copy_test vk s0).out)
    ∧ (memcmp_eq_zero (data source_cpu_data) (p_dst_check_map vk s0) TEST_BUFFER_SIZE = true
        ↔ mismatches_found (data source_cpu_data) (p_dst_check_map vk s0) = 0) := by
  have hv := verified_iff vk s0 hreach
  have hf := failed_iff vk s0 hreach
  obtain ⟨_, _, _, hout⟩ := copy_test_of_reached vk s0 hreach
  refine ⟨?_, ?_, ?_, ?_, total_zero_not_mem vk s0, (mismatches_found_eq_zero_iff _ _).symm⟩
  · rw [hv, memcmp_eq_zero_iff]
    exact ⟨fun h i hi => (h i hi).symm, fun h i hi => (h i hi).symm⟩
  · rw [hf, ← mismatches_found_eq, mismatches_found_pos_iff]
  · rw [hv, hf]; simp
  · intro hfail
    have hc := hf.1 hfail
    refine ⟨?_, (mismatches_found_pos_iff _ _).2 hc⟩
    rw [hout, check_lines.eq_1, hc, if_neg Bool.false_ne_true]
    refine List.mem_append_left _ (List.mem_append_right _ (List.mem_cons_of_mem _ ?_))
    exact (mem_report_mismatches _ _ _).2 (Or.inr (Or.inl rfl))

/-- An instance: the copying device from zeroed memory. -/
theorem copy_test_verdict_witness :
    (until_mapped copying_device (Memory.const 0)).thrown = none
    ∧ (Verified (copy_test copying_device (Memory.const 0)) ↔
        ∀ i, i < TEST_BUFFER_SIZE →
          p_dst_check_map copying_device (Memory.const 0) i = data source_cpu_data i) :=
  ⟨until_mapped_copying_thrown _, (copy_test_verdict copying_device (Memory.const 0)
    (until_mapped_copying_thrown _)).1⟩

/-- C8: once the check is reached, whatever destination image is read back,
`copy_test` ends without an exception; its steps are the same fixed list in
both branches, the comparison being followed by the unmap of the destination
memory as the last step; the last line written is the "finished" marker; and
the run is `Verified` or `Failed`, not both. -/
theorem mismatch_not_fatal {σ : Type} (vk : VulkanState σ) (s0 : σ)
    (hreach : (until_mapped vk s0).thrown = none) :
    (copy_test vk s0).thrown = none
    ∧ (copy_test vk s0).steps = copy_test_steps
    ∧ (copy_test vk s0).steps
        = (until_mapped vk s0).steps ++ [.memcmp .dst, .unmapMemory .dst]
    ∧ (copy_test vk s0).dev = vk.unmapMemory .dst (until_mapped vk s0).dev
    ∧ (copy_test vk s0).out.getLast? = some Msg.finished
    ∧ (Verified (copy_test vk s0) ∨ Failed (copy_test vk s0))
    ∧ ¬ (Verified (copy_test vk s0) ∧ Failed (copy_test vk s0)) := by
  obtain ⟨hthrown, hsteps, hdev, hout⟩ := copy_test_of_reached vk s0 hreach
  have hv := verified_iff vk s0 hreach
  have hf := failed_iff vk s0 hreach
  refine ⟨hthrown, hsteps, ?_, hdev, ?_, ?_, ?_⟩
  · rw [hsteps, (until_mapped_follows vk s0).1 hreach]
    rfl
  · rw [hout, List.getLast?_append]
    rfl
  · rw [hv, hf]
    cases memcmp_eq_zero (data source_cpu_data) (p_dst_check_map vk s0) TEST_BUFFER_SIZE
    · exact Or.inr rfl
    · exact Or.inl rfl
  · rw [hv, hf]
    simp

/-- An instance: the device whose `copy_buffer` does nothing, a run with 4096
mismatches. -/
theorem mismatch_not_fatal_witness :
    (until_mapped idle_device (Memory.const 0)).thrown = none
    ∧ (copy_test idle_device (Memory.const 0)).thrown = none
    ∧ (copy_test idle_device (Memory.const 0)).steps = copy_test_steps
    ∧ (copy_test idle_device (Memory.const 0)).out.getLast? = some Msg.finished :=
  have h := mismatch_not_fatal idle_device (Memory.const 0) (until_mapped_idle_thrown _)
  ⟨until_mapped_idle_thrown _, h.1, h.2.1, h.2.2.2.2.1⟩

/-- C7: in every run of `copy_test`, on any device and whether or not a call
throws: after each step every memory block has no or one active mapping (so
a block is never mapped while mapped, nor unmapped while unmapped), no block
is mapped when `copy_buffer` runs, and no block is mapped when the run is
over. -/
theorem copy_test_mapping_exclusive {σ : Type} (vk : VulkanState σ) (s0 : σ) :
    mapping_exclusive (copy_test vk s0).steps := by
  have hall : ∀ l, l ∈ copy_test_steps :: copy_test_cuts.map (fun k => copy_test_steps.take k) →
      mapping_exclusive l := by decide
  have hfol := copy_test_follows vk s0
  by_cases h : (copy_test vk s0).thrown = none
  · exact hall _ (by rw [hfol.1 h]; exact List.mem_cons_self _ _)
  · exact hall _ (List.mem_cons_of_mem _ (hfol.2 h))

/-- C6 as stated fails: in the run on host-visible memory from zeroed
contents, step 7 is the flush of the source memory and step 13 the invalidate
of the destination memory, and at neither is a mapping of that block active
(the source was unmapped at step 6; the destination was unmapped at step 11
and is mapped again only at step 14); so the run does not keep the sync
discipline. -/
theorem sync_outside_mapping :
    (copy_test copying_device (Memory.const 0)).thrown = none
    ∧ (copy_test copying_device (Memory.const 0)).steps.getD 7 .copy_buffer
        = .flushMappedMemoryRanges .src
    ∧ active_mappings ((copy_test copying_device (Memory.const 0)).steps.take 7) .src = 0
    ∧ (copy_test copying_device (Memory.const 0)).steps.getD 13 .copy_buffer
        = .invalidateMappedMemoryRanges .dst
    ∧ active_mappings ((copy_test copying_device (Memory.const 0)).steps.take 13) .dst = 0
    ∧ ¬ sync_while_mapped (copy_test copying_device (Memory.const 0)).steps := by
  obtain ⟨hthrown, hsteps, _, _⟩ :=
    copy_test_of_reached copying_device (Memory.const 0) (until_mapped_copying_thrown _)
  rw [hsteps]
  exact ⟨hthrown, by decide, by decide, by decide, by decide, by decide⟩

/-- C6 amended: in every run of `copy_test`, on any device and whether or not
a call throws, every flush and every invalidate of a memory block is issued
while no mapping of that block is active; a flush is of the source memory,
after the host has written the pattern and before `copy_buffer`; an
invalidate is of the destination memory, after `copy_buffer` and before the
host compares it; neither is issued more than once.  In a run without an
exception the flush is step 7, right after the second unmap of the source,
and the invalidate is step 13, right after `copy_buffer` and right before
the mapping of the destination for the check. -/
theorem sync_between_mappings_amended {σ : Type} (vk : VulkanState σ) (s0 : σ) :
    sync_between_mappings (copy_test vk s0).steps
    ∧ ((copy_test vk s0).thrown = none →
        (copy_test vk s0).steps.count (.flushMappedMemoryRanges .src) = 1
        ∧ (copy_test vk s0).steps.count (.invalidateMappedMemoryRanges .dst) = 1
        ∧ (copy_test vk s0).steps.getD 6 .copy_buffer = .unmapMemory .src
        ∧ (copy_test vk s0).steps.getD 7 .copy_buffer = .flushMappedMemoryRanges .src
        ∧ (copy_test vk s0).steps.getD 12 (.build .src) = .copy_buffer
        ∧ (copy_test vk s0).steps.getD 13 .copy_buffer = .invalidateMappedMemoryRanges .dst
        ∧ (copy_test vk s0).steps.getD 14 .copy_buffer = .mapMemory .dst) := by
  have hall : ∀ l, l ∈ copy_test_steps :: copy_test_cuts.map (fun k => copy_test_steps.take k) →
      sync_between_mappings l := by decide
  have hfol := copy_test_follows vk s0
  refine ⟨?_, ?_⟩
  · by_cases h : (copy_test vk s0).thrown = none
    · exact hall _ (by rw [hfol.1 h]; exact List.mem_cons_self _ _)
    · exact hall _ (List.mem_cons_of_mem _ (hfol.2 h))
  · intro h
    rw [hfol.1 h]
    decide

/-- An instance: the copying device from zeroed memory. -/
theorem sync_between_mappings_amended_witness :
    (copy_test copying_device (Memory.const 0)).thrown = none
    ∧ sync_between_mappings (copy_test copying_device (Memory.const 0)).steps
    ∧ (copy_test copying_device (Memory.const 0)).steps.count
        (.flushMappedMemoryRanges .src) = 1 :=
  have h : (copy_test copying_device (Memory.const 0)).thrown = none :=
    (copy_test_of_reached copying_device (Memory.const 0) (until_mapped_copying_thrown _)).1
  ⟨h, (sync_between_mappings_amended copying_device (Memory.const 0)).1,
    ((sync_between_mappings_amended copying_device (Memory.const 0)).2 h).1⟩

/-- C9 as stated fails: the run on host-visible memory from zeroed contents
is not ended by an exception, yet its steps are not the specified list: the
source memory is mapped twice where the list maps it once, and the step after
the first unmap of the source is a second mapping of it, not the flush. -/
theorem step_order_not_as_specified :
    (copy_test copying_device (Memory.const 0)).thrown = none
    ∧ (copy_test copying_device (Memory.const 0)).steps ≠ specified_steps
    ∧ (copy_test copying_device (Memory.const 0)).steps.count (.mapMemory .src) = 2
    ∧ specified_steps.count (.mapMemory .src) = 1
    ∧ (copy_test copying_device (Memory.const 0)).steps.getD 4 .copy_buffer
        = .mapMemory .src
    ∧ specified_steps.getD 4 .copy_buffer = .flushMappedMemoryRanges .src := by
  obtain ⟨hthrown, hsteps, _, _⟩ :=
    copy_test_of_reached copying_device (Memory.const 0) (until_mapped_copying_thrown _)
  rw [hsteps]
  exact ⟨hthrown, by decide, by decide, by decide, by decide, by decide⟩

/-- C9 amended: a run of `copy_test` that ends without an exception performs,
once through and on any device and data, exactly the steps of
`copy_test_steps`: the specified steps in the specified order, with a second
mapping of the source, its comparison with the host data, and its unmapping
between the first unmap and the flush.  Every build, host access, flush, copy
and invalidate occurs once; each block is mapped twice and unmapped twice. -/
theorem step_order_amended {σ : Type} (vk : VulkanState σ) (s0 : σ)
    (h : (copy_test vk s0).thrown = none) :
    (copy_test vk s0).steps = copy_test_steps
    ∧ (copy_test vk s0).steps
        = specified_steps.take 4
            ++ [.mapMemory .src, .memcmp .src, .unmapMemory .src]
            ++ specified_steps.drop 4
    ∧ (∀ s, s ∈ (copy_test vk s0).steps →
        (∀ m, s ≠ .mapMemory m ∧ s ≠ .unmapMemory m) →
          (copy_test vk s0).steps.count s = 1)
    ∧ (∀ m, (copy_test vk s0).steps.count (.mapMemory m) = 2
        ∧ (copy_test vk s0).steps.count (.unmapMemory m) = 2) := by
  have hsteps := (copy_test_follows vk s0).1 h
  rw [hsteps]
  exact ⟨rfl, by decide, by decide, by decide⟩

/-- An instance: the copying device from zeroed memory. -/
theorem step_order_amended_witness :
    (copy_test copying_device (Memory.const 0)).thrown = none
    ∧ (copy_test copying_device (Memory.const 0)).steps = copy_test_steps :=
  have h : (copy_test copying_device (Memory.const 0)).thrown = none :=
    (copy_test_of_reached copying_device (Memory.const 0) (until_mapped_copying_thrown _)).1
  ⟨h, (step_order_amended copying_device (Memory.const 0) h).1⟩

end Vkmark
